import Mathlib

/-!
A verification development for the hntop-rss enrichment subsystem.

The definitions below are a shallow embedding of the Go source:
* the OpenGraph HTML meta-tag extraction (`extractOpenGraphTags`),
* the OpenGraph cache (`getOpenGraphData`, `cacheOpenGraphData`),
* the enrichment orchestrator (`getOpenGraphWithFallback`),
* the item-stats refresh (`fetchItemStats`, `updateItemStats`),
* the fetcher's concurrency semaphore (`NewOpenGraphFetcher`).

Machine integers are modelled as `Int`, Go `time.Time`/`time.Duration` as
nanosecond counts (`Int`), HTML documents as a tree type mirroring
`golang.org/x/net/html.Node`, and network I/O as explicit oracle parameters.
-/

/-- OpenGraphData mirrors the Go struct of the same name (types.go). -/
@[ext]
structure OpenGraphData where
  URL : String
  Title : String
  Description : String
  Image : String
  SiteName : String
deriving DecidableEq, Inhabited

mutual

/-- A node of a parsed HTML document, mirroring `html.Node` from
golang.org/x/net/html: an element node with a tag name, an attribute
list and children in document order, or a text node. -/
inductive HNode where
  | elem (tag : String) (attrs : List (String × String)) (children : HForest)
  | text (s : String)

/-- A sibling list of HTML nodes (`FirstChild`/`NextSibling` chain). -/
inductive HForest where
  | nil
  | cons (n : HNode) (ns : HForest)

end

/-- The Go attribute loop `for _, attr := range n.Attr { switch attr.Key ... }`
keeps the value of the last attribute with the given key, defaulting to "". -/
def attrVal (key : String) (attrs : List (String × String)) : String :=
  attrs.foldl (fun acc kv => if kv.1 = key then kv.2 else acc) ""

/-- Model of Go `strings.TrimSpace`: drop leading and trailing whitespace. -/
def trimSpace (s : String) : String :=
  String.mk (((s.data.dropWhile Char.isWhitespace).reverse.dropWhile Char.isWhitespace).reverse)

/-- The OpenGraph `switch property` block of `extractOpenGraphTags`:
each og field is assigned from the meta tag only while it is still empty. -/
def extractMetaOg (attrs : List (String × String)) (d : OpenGraphData) : OpenGraphData :=
  let property := attrVal "property" attrs
  let content := attrVal "content" attrs
  if property = "og:title" then
    (if d.Title = "" then { d with Title := content } else d)
  else if property = "og:description" then
    (if d.Description = "" then { d with Description := content } else d)
  else if property = "og:image" then
    (if d.Image = "" then { d with Image := content } else d)
  else if property = "og:site_name" then
    (if d.SiteName = "" then { d with SiteName := content } else d)
  else d

/-- The `<title>` fallback block of `extractOpenGraphTags`: when the title is
still empty and the element's first child is a text node, the trimmed text
becomes the title. -/
def extractTitleFallback (children : HForest) (d : OpenGraphData) : OpenGraphData :=
  if d.Title = "" then
    match children with
    | .cons (.text s) _ => { d with Title := trimSpace s }
    | _ => d
  else d

/-- The `<meta name="description">` fallback block of `extractOpenGraphTags`. -/
def extractDescFallback (attrs : List (String × String)) (d : OpenGraphData) : OpenGraphData :=
  if d.Description = "" then
    let name := attrVal "name" attrs
    let content := attrVal "content" attrs
    if name = "description" then { d with Description := content } else d
  else d

/-- The per-node part of `extractOpenGraphTags`, in source order: the og meta
block, then the title-element fallback, then the meta-description fallback. -/
def nodeStep (tag : String) (attrs : List (String × String)) (children : HForest)
    (d : OpenGraphData) : OpenGraphData :=
  let d1 := if tag = "meta" then extractMetaOg attrs d else d
  let d2 := if tag = "title" then extractTitleFallback children d1 else d1
  if tag = "meta" then extractDescFallback attrs d2 else d2

mutual

/-- extractOpenGraphTags recursively extracts OpenGraph meta tags from HTML,
mirroring the Go function of the same name: process the node itself, then
recurse over its children in document order. Text nodes have no children. -/
def extractOpenGraphTags : HNode → OpenGraphData → OpenGraphData
  | .text _, d => d
  | .elem tag attrs children, d => extractForest children (nodeStep tag attrs children d)

/-- The `for c := n.FirstChild; c != nil; c = c.NextSibling` loop of
`extractOpenGraphTags`, folding the extraction over the sibling list. -/
def extractForest : HForest → OpenGraphData → OpenGraphData
  | .nil, d => d
  | .cons n ns, d => extractForest ns (extractOpenGraphTags n d)

end

/-- First non-empty string in a list, or "" when there is none. -/
def firstNonEmpty : List String → String
  | [] => ""
  | s :: rest => if s = "" then firstNonEmpty rest else s

/-- The candidate values a document contributes to each OpenGraph field, in
document traversal order: og meta contents, the `<title>` trimmed text for
the title, and `<meta name="description">` contents for the description. -/
@[ext]
structure OgCands where
  title : List String
  description : List String
  image : List String
  siteName : List String
deriving DecidableEq

def OgCands.append (a b : OgCands) : OgCands :=
  ⟨a.title ++ b.title, a.description ++ b.description,
   a.image ++ b.image, a.siteName ++ b.siteName⟩

def OgCands.empty : OgCands := ⟨[], [], [], []⟩

/-- The candidates contributed by one node itself (not its children), in the
same order in which `extractOpenGraphTags` inspects that node. -/
def nodeCands (tag : String) (attrs : List (String × String))
    (children : HForest) : OgCands :=
  let property := attrVal "property" attrs
  let content := attrVal "content" attrs
  let name := attrVal "name" attrs
  { title :=
      (if tag = "meta" ∧ property = "og:title" then [content] else []) ++
      (if tag = "title" then
        (match children with
         | .cons (.text s) _ => [trimSpace s]
         | _ => []) else [])
    description :=
      (if tag = "meta" ∧ property = "og:description" then [content] else []) ++
      (if tag = "meta" ∧ name = "description" then [content] else [])
    image := if tag = "meta" ∧ property = "og:image" then [content] else []
    siteName := if tag = "meta" ∧ property = "og:site_name" then [content] else [] }

mutual

/-- All candidate values of a document in traversal order. -/
def docCands : HNode → OgCands
  | .text _ => OgCands.empty
  | .elem tag attrs children =>
      OgCands.append (nodeCands tag attrs children) (forestCands children)

def forestCands : HForest → OgCands
  | .nil => OgCands.empty
  | .cons n ns => OgCands.append (docCands n) (forestCands ns)

end

/-- Filling a partially filled record from a candidate list: every field keeps
its value once non-empty, otherwise it receives the first non-empty candidate. -/
def fillFrom (d : OpenGraphData) (c : OgCands) : OpenGraphData :=
  { URL := d.URL
    Title := if d.Title = "" then firstNonEmpty c.title else d.Title
    Description := if d.Description = "" then firstNonEmpty c.description else d.Description
    Image := if d.Image = "" then firstNonEmpty c.image else d.Image
    SiteName := if d.SiteName = "" then firstNonEmpty c.siteName else d.SiteName }

theorem firstNonEmpty_append (a b : List String) :
    firstNonEmpty (a ++ b) =
      if firstNonEmpty a = "" then firstNonEmpty b else firstNonEmpty a := by
  induction a with
  | nil => simp [firstNonEmpty]
  | cons s rest ih =>
      by_cases hs : s = "" <;> simp [firstNonEmpty, hs, ih]

theorem fillFrom_append (d : OpenGraphData) (c₁ c₂ : OgCands) :
    fillFrom (fillFrom d c₁) c₂ = fillFrom d (OgCands.append c₁ c₂) := by
  cases d
  simp only [fillFrom, OgCands.append, firstNonEmpty_append, OpenGraphData.mk.injEq]
  refine ⟨trivial, ?_, ?_, ?_, ?_⟩ <;> dsimp only <;> split_ifs <;> simp_all

theorem fillFrom_empty (d : OpenGraphData) : fillFrom d OgCands.empty = d := by
  cases d
  simp only [fillFrom, OgCands.empty, firstNonEmpty, OpenGraphData.mk.injEq]
  refine ⟨trivial, ?_, ?_, ?_, ?_⟩ <;> dsimp only <;> split_ifs <;> simp_all

theorem ite_empty_self (a : String) : (if a = "" then "" else a) = a := by
  split_ifs with h
  · exact h.symm
  · rfl

set_option maxHeartbeats 2000000 in
/-- One node's own processing agrees with filling from its own candidates. -/
theorem nodeStep_eq_fillFrom (tag : String) (attrs : List (String × String))
    (children : HForest) (d : OpenGraphData) :
    nodeStep tag attrs children d = fillFrom d (nodeCands tag attrs children) := by
  obtain ⟨u, t, desc, img, sn⟩ := d
  by_cases hm : tag = "meta"
  · have ht : ¬ tag = "title" := by rw [hm]; decide
    simp only [nodeStep, nodeCands, extractMetaOg, extractDescFallback, fillFrom,
      hm, ht, if_true, if_false, ite_true, ite_false, true_and, false_and]
    split_ifs <;> simp_all [firstNonEmpty, OpenGraphData.mk.injEq, ite_empty_self]
  · by_cases ht : tag = "title"
    · simp only [nodeStep, nodeCands, extractTitleFallback, fillFrom,
        hm, ht, if_true, if_false, ite_true, ite_false, true_and, false_and]
      cases children with
      | nil =>
          simp only [List.nil_append, List.append_nil]
          split_ifs <;> simp_all [firstNonEmpty, OpenGraphData.mk.injEq, ite_empty_self]
      | cons n ns =>
          cases n <;>
            simp only [List.nil_append, List.append_nil] <;>
            split_ifs <;> simp_all [firstNonEmpty, OpenGraphData.mk.injEq, ite_empty_self]
    · simp only [nodeStep, nodeCands, fillFrom, hm, ht,
        if_true, if_false, ite_true, ite_false, true_and, false_and]
      split_ifs <;> simp_all [firstNonEmpty, OpenGraphData.mk.injEq, ite_empty_self]

mutual

/-- Extraction computes, for every field, the first non-empty candidate in
document traversal order (keeping any already non-empty field). -/
theorem extractOpenGraphTags_eq_fillFrom (n : HNode) (d : OpenGraphData) :
    extractOpenGraphTags n d = fillFrom d (docCands n) := by
  cases n with
  | text s => simp [extractOpenGraphTags, docCands, fillFrom_empty]
  | elem tag attrs children =>
      rw [extractOpenGraphTags, docCands, extractForest_eq_fillFrom,
        nodeStep_eq_fillFrom, fillFrom_append]

theorem extractForest_eq_fillFrom (ns : HForest) (d : OpenGraphData) :
    extractForest ns d = fillFrom d (forestCands ns) := by
  cases ns with
  | nil => simp [extractForest, forestCands, fillFrom_empty]
  | cons n ns =>
      rw [extractForest, forestCands, extractForest_eq_fillFrom,
        extractOpenGraphTags_eq_fillFrom, fillFrom_append]

end

/-- OpenGraphCache mirrors the Go struct of the same name (types.go), one row
of the `opengraph_cache` table. Timestamps are nanosecond counts. -/
@[ext]
structure OpenGraphCache where
  ID : Int
  URL : String
  Title : String
  Description : String
  Image : String
  SiteName : String
  FetchedAt : Int
  ExpiresAt : Int
  FetchSuccess : Bool
deriving DecidableEq, Inhabited

/-- The persistent store: the `opengraph_cache` table rows plus the next
AUTOINCREMENT id. -/
structure DBState where
  rows : List OpenGraphCache
  nextId : Int
deriving DecidableEq, Inhabited

/-- Nanoseconds per hour (`time.Hour`). -/
def hourNs : Int := 3600 * 1000000000

/-- getOpenGraphData retrieves cached OpenGraph data for a URL (database.go):
`SELECT ... FROM opengraph_cache WHERE url = ? AND expires_at > ?` with the
current time, returning the first matching row or nothing. -/
def getOpenGraphData (s : DBState) (url : String) (now : Int) : Option OpenGraphCache :=
  s.rows.find? (fun r => r.URL == url && decide (now < r.ExpiresAt))

/-- The `DO UPDATE SET` clause of the cache upsert: every column except id
and url is overwritten with the new values. -/
def upsertRow (og : OpenGraphData) (fetchSuccess : Bool) (now : Int)
    (r : OpenGraphCache) : OpenGraphCache :=
  { r with Title := og.Title, Description := og.Description,
           Image := og.Image, SiteName := og.SiteName,
           FetchedAt := now,
           ExpiresAt := now + (if fetchSuccess then 7 * 24 * hourNs else 24 * hourNs),
           FetchSuccess := fetchSuccess }

/-- The fresh row inserted by the cache upsert when the url is new. -/
def insertRow (og : OpenGraphData) (fetchSuccess : Bool) (now : Int)
    (id : Int) : OpenGraphCache :=
  { ID := id, URL := og.URL, Title := og.Title,
    Description := og.Description, Image := og.Image,
    SiteName := og.SiteName, FetchedAt := now,
    ExpiresAt := now + (if fetchSuccess then 7 * 24 * hourNs else 24 * hourNs),
    FetchSuccess := fetchSuccess }

/-- cacheOpenGraphData stores OpenGraph data in the cache (database.go):
`INSERT ... ON CONFLICT(url) DO UPDATE SET ...`, an upsert keyed by url.
Expiry is now + 7 days on success, now + 1 day on failure; on conflict every
column except id and url is overwritten. -/
def cacheOpenGraphData (s : DBState) (og : OpenGraphData) (fetchSuccess : Bool)
    (now : Int) : DBState :=
  if s.rows.any (fun r => r.URL == og.URL) then
    { s with rows := s.rows.map (fun r =>
        if r.URL == og.URL then upsertRow og fetchSuccess now r else r) }
  else
    { rows := s.rows ++ [insertRow og fetchSuccess now s.nextId],
      nextId := s.nextId + 1 }

/-- cleanupExpiredOpenGraphCache (database.go):
`DELETE FROM opengraph_cache WHERE expires_at < ?` with the current time. -/
def cleanupExpiredOpenGraphCache (s : DBState) (now : Int) : DBState :=
  { s with rows := s.rows.filter (fun r => !(decide (r.ExpiresAt < now))) }

/-- cleanOpenGraphData cleans and validates OpenGraph data (the opengraph
fetcher file): trim whitespace from the text fields and clear the image when
it does not parse as a URL. `parseOk` models Go `url.Parse` succeeding. -/
def cleanOpenGraphData (parseOk : String → Bool) (og : OpenGraphData) : OpenGraphData :=
  let og1 := { og with Title := trimSpace og.Title,
                       Description := trimSpace og.Description,
                       SiteName := trimSpace og.SiteName }
  if og1.Image = "" then og1
  else if parseOk og1.Image then og1
  else { og1 with Image := "" }

/-- The outcome of one `fetcher.FetchOpenGraph` call, as seen by the
orchestrator: the returned pointer (possibly nil) and whether an error was
returned. A real success is `errored = false` with a non-nil record. -/
structure FetchOutcome where
  og : Option OpenGraphData
  errored : Bool

/-- What one orchestrator call did: the value returned to the caller, the
store afterwards, and how many gateway fetches and cache lookups it made. -/
structure EnrichResult where
  res : Option OpenGraphData
  db : Option DBState
  fetches : Nat
  lookups : Nat
deriving DecidableEq

/-- The cache-miss path of `getOpenGraphWithFallback` (the Go code from
`fetcher.FetchOpenGraph` on): classify the fetch outcome, synthesize a
url-only record on a nil-result failure, clean a successful result, cache
the record when there is one, and return it only on success. -/
def fetchAndStore (s : DBState) (fetch : FetchOutcome) (url : String) (now : Int)
    (parseOk : String → Bool) : EnrichResult :=
  let fetchSuccess := !fetch.errored && fetch.og.isSome
  let ogData : Option OpenGraphData :=
    if fetch.errored then
      match fetch.og with
      | none => some { URL := url, Title := "", Description := "", Image := "", SiteName := "" }
      | some og => some og
    else
      match fetch.og with
      | some og => some (cleanOpenGraphData parseOk og)
      | none => none
  let db1 : DBState :=
    match ogData with
    | some og => cacheOpenGraphData s og fetchSuccess now
    | none => s
  { res := if fetchSuccess then ogData else none,
    db := some db1, fetches := 1, lookups := 1 }

/-- getOpenGraphWithFallback fetches OpenGraph data with caching and fallback
(the feed-generation file). A nil database skips everything; otherwise the
cache is consulted (a lookup I/O fault is only logged and leaves `cached`
nil), a live success entry is returned as-is, a live failure entry suppresses
the fetch, and otherwise the fetch path runs. -/
def getOpenGraphWithFallback (db : Option DBState) (lookupFault : Bool)
    (fetch : FetchOutcome) (url : String) (now : Int)
    (parseOk : String → Bool) : EnrichResult :=
  match db with
  | none => { res := none, db := none, fetches := 0, lookups := 0 }
  | some s =>
    let cached := if lookupFault then none else getOpenGraphData s url now
    match cached with
    | some c =>
        if c.FetchSuccess then
          { res := some { URL := c.URL, Title := c.Title, Description := c.Description,
                          Image := c.Image, SiteName := c.SiteName },
            db := some s, fetches := 0, lookups := 1 }
        else
          { res := none, db := some s, fetches := 0, lookups := 1 }
    | none => fetchAndStore s fetch url now parseOk

/-- The per-item guard in generateRSSFeed (the feed-generation file):
OpenGraph data is fetched only when `item.Link != ""`; an empty link never
reaches `getOpenGraphWithFallback`. -/
def rssItemOpenGraph (db : Option DBState) (fetch : FetchOutcome) (link : String)
    (now : Int) (parseOk : String → Bool) : EnrichResult :=
  if link ≠ "" then getOpenGraphWithFallback db false fetch link now parseOk
  else { res := none, db := db, fetches := 0, lookups := 0 }

/-- The `UNIQUE` constraint on `opengraph_cache.url`: at most one row per url. -/
def cacheUnique (s : DBState) : Prop :=
  ∀ u : String, s.rows.countP (fun r => r.URL == u) ≤ 1

/-- Every row of the upserted url carries exactly the stored fields. -/
theorem cacheOpenGraphData_row_fields (s : DBState) (og : OpenGraphData)
    (fetchSuccess : Bool) (now : Int) (r : OpenGraphCache)
    (hr : r ∈ (cacheOpenGraphData s og fetchSuccess now).rows)
    (hu : r.URL = og.URL) :
    r.Title = og.Title ∧ r.Description = og.Description ∧ r.Image = og.Image ∧
    r.SiteName = og.SiteName ∧ r.FetchedAt = now ∧ r.FetchSuccess = fetchSuccess ∧
    r.ExpiresAt = now + (if fetchSuccess then 7 * 24 * hourNs else 24 * hourNs) := by
  unfold cacheOpenGraphData at hr
  by_cases hany : s.rows.any (fun r => r.URL == og.URL)
  · simp only [hany, if_true, ite_true, List.mem_map] at hr
    obtain ⟨r₀, _, hmap⟩ := hr
    by_cases h0 : r₀.URL == og.URL
    · simp only [h0, if_true, ite_true] at hmap
      subst hmap
      simp [upsertRow]
    · simp only [h0, if_false, ite_false] at hmap
      subst hmap
      simp only [beq_iff_eq] at h0
      exact absurd hu h0
  · simp only [hany, Bool.false_eq_true, if_false, ite_false] at hr
    rw [List.mem_append, List.mem_singleton] at hr
    rcases hr with hmem | hnew
    · exfalso
      rw [List.any_eq_true] at hany
      exact hany ⟨r, hmem, by simp [hu]⟩
    · subst hnew
      simp [insertRow]

/-- An upsert always leaves a row for the url, with the new expiry. -/
theorem cacheOpenGraphData_exists_row (s : DBState) (og : OpenGraphData)
    (fetchSuccess : Bool) (now₀ : Int) :
    ∃ r ∈ (cacheOpenGraphData s og fetchSuccess now₀).rows,
      r.URL = og.URL ∧
      r.ExpiresAt = now₀ + (if fetchSuccess then 7 * 24 * hourNs else 24 * hourNs) := by
  unfold cacheOpenGraphData
  by_cases hany : s.rows.any (fun r => r.URL == og.URL)
  · rw [if_pos hany]
    obtain ⟨r₀, hr₀, hm⟩ := List.any_eq_true.mp hany
    refine ⟨_, List.mem_map_of_mem _ hr₀, ?_⟩
    simp only [hm, if_true, ite_true]
    simp only [beq_iff_eq] at hm
    simp [upsertRow, hm]
  · rw [if_neg hany]
    exact ⟨_, List.mem_append_right _ (List.mem_singleton.mpr rfl), rfl, rfl⟩

/-- After an upsert, looking the url up before its new expiry finds a row,
and that row carries the stored success flag. -/
theorem getOpenGraphData_after_cache (s : DBState) (og : OpenGraphData)
    (fetchSuccess : Bool) (now₀ now₁ : Int)
    (h : now₁ < now₀ + (if fetchSuccess then 7 * 24 * hourNs else 24 * hourNs)) :
    ∃ c, getOpenGraphData (cacheOpenGraphData s og fetchSuccess now₀) og.URL now₁ = some c ∧
      c.FetchSuccess = fetchSuccess := by
  obtain ⟨r, hmem, hurl, hexp⟩ := cacheOpenGraphData_exists_row s og fetchSuccess now₀
  have hsome : ((cacheOpenGraphData s og fetchSuccess now₀).rows.find?
      (fun r => r.URL == og.URL && decide (now₁ < r.ExpiresAt))).isSome := by
    rw [List.find?_isSome]
    refine ⟨r, hmem, ?_⟩
    simp only [hurl, hexp, beq_self_eq_true, Bool.true_and, decide_eq_true_eq]
    exact h
  obtain ⟨c, hc⟩ := Option.isSome_iff_exists.mp hsome
  have hpred := List.find?_some hc
  have hmemc := List.mem_of_find?_eq_some hc
  simp only [Bool.and_eq_true, beq_iff_eq] at hpred
  have hfields := cacheOpenGraphData_row_fields s og fetchSuccess now₀ c hmemc hpred.1
  exact ⟨c, hc, hfields.2.2.2.2.2.1⟩

/-- A keyed update (the `ON CONFLICT` branch) never changes how many rows
match any url, as long as the update preserves the url column. -/
theorem countP_map_update (l : List OpenGraphCache) (u v : String)
    (f : OpenGraphCache → OpenGraphCache) (hf : ∀ r, (f r).URL = r.URL) :
    (l.map (fun r => if r.URL == u then f r else r)).countP (fun r => r.URL == v) =
      l.countP (fun r => r.URL == v) := by
  induction l with
  | nil => rfl
  | cons r rest ih =>
      simp only [List.map_cons, List.countP_cons]
      rw [ih]
      by_cases hr : r.URL = u <;> simp [hr, hf]

/-- A keyed update keeps every row whose url differs from the key unchanged. -/
theorem filter_map_update (l : List OpenGraphCache) (u : String)
    (f : OpenGraphCache → OpenGraphCache) (hf : ∀ r, (f r).URL = r.URL) :
    (l.map (fun r => if r.URL == u then f r else r)).filter (fun r => !(r.URL == u)) =
      l.filter (fun r => !(r.URL == u)) := by
  induction l with
  | nil => rfl
  | cons r rest ih =>
      simp only [List.map_cons, List.filter_cons]
      rw [ih]
      by_cases hr : r.URL = u <;> simp [hr, hf]

/-- After an upsert there is exactly one row for the stored url. -/
theorem cacheOpenGraphData_count_one (s : DBState) (og : OpenGraphData)
    (fetchSuccess : Bool) (now : Int) (hinv : cacheUnique s) :
    (cacheOpenGraphData s og fetchSuccess now).rows.countP
      (fun r => r.URL == og.URL) = 1 := by
  unfold cacheOpenGraphData
  by_cases hany : s.rows.any (fun r => r.URL == og.URL)
  · rw [if_pos hany]
    dsimp only
    rw [countP_map_update s.rows og.URL og.URL (upsertRow og fetchSuccess now) (fun r => rfl)]
    obtain ⟨r₀, hr₀, hm⟩ := List.any_eq_true.mp hany
    have hpos : 0 < s.rows.countP (fun r => r.URL == og.URL) :=
      List.countP_pos_iff.mpr ⟨r₀, hr₀, hm⟩
    have hle := hinv og.URL
    omega
  · rw [if_neg hany]
    dsimp only
    have hzero : s.rows.countP (fun r => r.URL == og.URL) = 0 := by
      rw [List.countP_eq_zero]
      intro r hr hmatch
      exact hany (List.any_eq_true.mpr ⟨r, hr, hmatch⟩)
    rw [List.countP_append, hzero]
    simp [List.countP_cons, insertRow]

/-- An upsert leaves rows for every other url untouched. -/
theorem cacheOpenGraphData_frame (s : DBState) (og : OpenGraphData)
    (fetchSuccess : Bool) (now : Int) :
    (cacheOpenGraphData s og fetchSuccess now).rows.filter
      (fun r => !(r.URL == og.URL)) =
    s.rows.filter (fun r => !(r.URL == og.URL)) := by
  unfold cacheOpenGraphData
  by_cases hany : s.rows.any (fun r => r.URL == og.URL)
  · rw [if_pos hany]
    dsimp only
    exact filter_map_update s.rows og.URL (upsertRow og fetchSuccess now) (fun r => rfl)
  · rw [if_neg hany]
    dsimp only
    rw [List.filter_append]
    simp [insertRow]

/-- Upserting preserves the url uniqueness invariant. -/
theorem cacheOpenGraphData_unique (s : DBState) (og : OpenGraphData)
    (fetchSuccess : Bool) (now : Int) (hinv : cacheUnique s) :
    cacheUnique (cacheOpenGraphData s og fetchSuccess now) := by
  intro u
  unfold cacheOpenGraphData
  by_cases hany : s.rows.any (fun r => r.URL == og.URL)
  · rw [if_pos hany]
    dsimp only
    rw [countP_map_update s.rows og.URL u (upsertRow og fetchSuccess now) (fun r => rfl)]
    exact hinv u
  · rw [if_neg hany]
    dsimp only
    rw [List.countP_append]
    by_cases hu : og.URL = u
    · have hzero : s.rows.countP (fun r => r.URL == u) = 0 := by
        rw [List.countP_eq_zero]
        intro r hr hmatch
        refine hany (List.any_eq_true.mpr ⟨r, hr, ?_⟩)
        simp only [beq_iff_eq] at hmatch ⊢
        rw [hmatch, hu]
      rw [hzero]
      simp [List.countP_cons, insertRow, hu]
    · have hle := hinv u
      simp only [List.countP_cons, List.countP_nil]
      simp [insertRow, hu]
      omega

/-- Cleaning never changes the url field. -/
theorem cleanOpenGraphData_URL (parseOk : String → Bool) (og : OpenGraphData) :
    (cleanOpenGraphData parseOk og).URL = og.URL := by
  unfold cleanOpenGraphData
  dsimp only
  split_ifs <;> rfl

/-- A live success entry is returned directly. -/
theorem getOpenGraphWithFallback_hit (s : DBState) (fetch : FetchOutcome)
    (parseOk : String → Bool) (url : String) (now : Int) (c : OpenGraphCache)
    (hc : getOpenGraphData s url now = some c) (hfs : c.FetchSuccess = true) :
    getOpenGraphWithFallback (some s) false fetch url now parseOk =
      { res := some { URL := c.URL, Title := c.Title, Description := c.Description,
                      Image := c.Image, SiteName := c.SiteName },
        db := some s, fetches := 0, lookups := 1 } := by
  unfold getOpenGraphWithFallback
  simp [hc, hfs]

/-- A live failure entry suppresses the fetch and yields nothing. -/
theorem getOpenGraphWithFallback_tombstone (s : DBState) (fetch : FetchOutcome)
    (parseOk : String → Bool) (url : String) (now : Int) (c : OpenGraphCache)
    (hc : getOpenGraphData s url now = some c) (hfs : c.FetchSuccess = false) :
    getOpenGraphWithFallback (some s) false fetch url now parseOk =
      { res := none, db := some s, fetches := 0, lookups := 1 } := by
  unfold getOpenGraphWithFallback
  simp [hc, hfs]

/-- On a cache miss the fetch path runs. -/
theorem getOpenGraphWithFallback_miss (s : DBState) (fetch : FetchOutcome)
    (parseOk : String → Bool) (url : String) (now : Int)
    (hc : getOpenGraphData s url now = none) :
    getOpenGraphWithFallback (some s) false fetch url now parseOk =
      fetchAndStore s fetch url now parseOk := by
  unfold getOpenGraphWithFallback
  simp [hc]

/-- On a cache lookup I/O fault the fetch path runs, whatever the store holds. -/
theorem getOpenGraphWithFallback_fault (s : DBState) (fetch : FetchOutcome)
    (parseOk : String → Bool) (url : String) (now : Int) :
    getOpenGraphWithFallback (some s) true fetch url now parseOk =
      fetchAndStore s fetch url now parseOk := by
  unfold getOpenGraphWithFallback
  simp

/-- No single orchestrator call fetches more than once. -/
theorem getOpenGraphWithFallback_fetches_le_one (db : Option DBState) (fault : Bool)
    (fetch : FetchOutcome) (url : String) (now : Int) (parseOk : String → Bool) :
    (getOpenGraphWithFallback db fault fetch url now parseOk).fetches ≤ 1 := by
  unfold getOpenGraphWithFallback
  cases db with
  | none => simp
  | some s =>
      dsimp only
      split
      · split <;> simp
      · simp [fetchAndStore]

/-- C1: a url with a non-expired success cache entry is enriched from the
cache: the entry's url, title, description, image and site name are returned,
the store is unchanged and no gateway fetch happens; consequently two
enrichment calls on the same url within the 7-day positive TTL (the second on
the store the first left behind, while a positive entry governs, i.e. the
first call returned metadata) perform at most one gateway fetch in total. -/
theorem og_cache_hit_no_refetch :
    (∀ (s : DBState) (fetch : FetchOutcome) (parseOk : String → Bool) (url : String)
       (now : Int) (c : OpenGraphCache),
       getOpenGraphData s url now = some c → c.FetchSuccess = true →
       getOpenGraphWithFallback (some s) false fetch url now parseOk =
         { res := some { URL := c.URL, Title := c.Title, Description := c.Description,
                         Image := c.Image, SiteName := c.SiteName },
           db := some s, fetches := 0, lookups := 1 }) ∧
    (∀ (s : DBState) (fetch₁ fetch₂ : FetchOutcome) (parseOk : String → Bool)
       (url : String) (now₀ now₁ : Int),
       (∀ og, fetch₁.og = some og → og.URL = url) →
       now₁ < now₀ + 7 * 24 * hourNs →
       (getOpenGraphWithFallback (some s) false fetch₁ url now₀ parseOk).res.isSome →
       (getOpenGraphWithFallback (some s) false fetch₁ url now₀ parseOk).fetches +
         (getOpenGraphWithFallback
            (getOpenGraphWithFallback (some s) false fetch₁ url now₀ parseOk).db
            false fetch₂ url now₁ parseOk).fetches ≤ 1) := by
  constructor
  · intro s fetch parseOk url now c hc hfs
    exact getOpenGraphWithFallback_hit s fetch parseOk url now c hc hfs
  · intro s f₁ f₂ parseOk url now₀ now₁ hurl h7 hres
    cases hc : getOpenGraphData s url now₀ with
    | some c =>
        by_cases hfs : c.FetchSuccess
        · rw [getOpenGraphWithFallback_hit s f₁ parseOk url now₀ c hc hfs]
          have hle := getOpenGraphWithFallback_fetches_le_one (some s) false f₂ url now₁ parseOk
          simpa using hle
        · rw [getOpenGraphWithFallback_tombstone s f₁ parseOk url now₀ c hc
            (by simpa using hfs)] at hres
          simp at hres
    | none =>
        rw [getOpenGraphWithFallback_miss s f₁ parseOk url now₀ hc] at hres ⊢
        obtain ⟨og?, err⟩ := f₁
        cases err with
        | true =>
            exfalso
            cases og? <;> simp [fetchAndStore] at hres
        | false =>
            cases og? with
            | none => exfalso; simp [fetchAndStore] at hres
            | some og₀ =>
                have hogurl : og₀.URL = url := hurl og₀ rfl
                have heq : fetchAndStore s ⟨some og₀, false⟩ url now₀ parseOk =
                    { res := some (cleanOpenGraphData parseOk og₀),
                      db := some (cacheOpenGraphData s
                        (cleanOpenGraphData parseOk og₀) true now₀),
                      fetches := 1, lookups := 1 } := by
                  simp [fetchAndStore]
                rw [heq]
                obtain ⟨c, hcc, hcfs⟩ := getOpenGraphData_after_cache s
                    (cleanOpenGraphData parseOk og₀) true now₀ now₁ (by simpa using h7)
                have hurl2 : (cleanOpenGraphData parseOk og₀).URL = url := by
                  rw [cleanOpenGraphData_URL]
                  exact hogurl
                rw [hurl2] at hcc
                rw [getOpenGraphWithFallback_hit _ f₂ parseOk url now₁ c hcc hcfs]
                simp

/-- C1 witness: at a concrete store holding a live success entry for "u",
enrichment returns the cached fields with zero fetches; and a concrete
first-call-fetches scenario performs at most one fetch over two calls. -/
theorem og_cache_hit_no_refetch_witness :
    (getOpenGraphData ⟨[⟨1, "u", "T", "D", "I", "S", 0, 100, true⟩], 2⟩ "u" 5 =
        some ⟨1, "u", "T", "D", "I", "S", 0, 100, true⟩ ∧
      getOpenGraphWithFallback (some ⟨[⟨1, "u", "T", "D", "I", "S", 0, 100, true⟩], 2⟩)
          false ⟨none, true⟩ "u" 5 (fun _ => true) =
        { res := some ⟨"u", "T", "D", "I", "S"⟩,
          db := some ⟨[⟨1, "u", "T", "D", "I", "S", 0, 100, true⟩], 2⟩,
          fetches := 0, lookups := 1 }) ∧
    (getOpenGraphWithFallback (some ⟨[], 0⟩) false
        ⟨some ⟨"u", "T", "D", "", "S"⟩, false⟩ "u" 0 (fun _ => true)).fetches +
      (getOpenGraphWithFallback
          (getOpenGraphWithFallback (some ⟨[], 0⟩) false
            ⟨some ⟨"u", "T", "D", "", "S"⟩, false⟩ "u" 0 (fun _ => true)).db
          false ⟨none, true⟩ "u" 5 (fun _ => true)).fetches ≤ 1 := by
  refine ⟨⟨by decide, ?_⟩, ?_⟩
  · exact og_cache_hit_no_refetch.1 _ _ _ _ _ ⟨1, "u", "T", "D", "I", "S", 0, 100, true⟩
      (by decide) (by decide)
  · exact og_cache_hit_no_refetch.2 ⟨[], 0⟩ ⟨some ⟨"u", "T", "D", "", "S"⟩, false⟩
      ⟨none, true⟩ (fun _ => true) "u" 0 5
      (by intro og h; injection h with h; rw [← h]) (by decide) (by decide)

/-- C2: a url with a non-expired failure entry (live tombstone) is not
fetched: enrichment returns nothing, performs zero gateway fetches and leaves
the store unchanged, for any time at which the tombstone is still found. -/
theorem og_tombstone_suppresses_fetch :
    ∀ (s : DBState) (fetch : FetchOutcome) (parseOk : String → Bool) (url : String)
      (now : Int) (c : OpenGraphCache),
      getOpenGraphData s url now = some c → c.FetchSuccess = false →
      getOpenGraphWithFallback (some s) false fetch url now parseOk =
        { res := none, db := some s, fetches := 0, lookups := 1 } :=
  fun s fetch parseOk url now c hc hfs =>
    getOpenGraphWithFallback_tombstone s fetch parseOk url now c hc hfs

/-- C2 witness: a concrete live tombstone for "u" yields nothing, no fetch. -/
theorem og_tombstone_suppresses_fetch_witness :
    getOpenGraphData ⟨[⟨1, "u", "", "", "", "", 0, 100, false⟩], 2⟩ "u" 5 =
        some ⟨1, "u", "", "", "", "", 0, 100, false⟩ ∧
    getOpenGraphWithFallback (some ⟨[⟨1, "u", "", "", "", "", 0, 100, false⟩], 2⟩)
        false ⟨some ⟨"u", "x", "y", "z", "w"⟩, false⟩ "u" 5 (fun _ => true) =
      { res := none, db := some ⟨[⟨1, "u", "", "", "", "", 0, 100, false⟩], 2⟩,
        fetches := 0, lookups := 1 } :=
  ⟨by decide,
   og_tombstone_suppresses_fetch _ _ _ _ _ ⟨1, "u", "", "", "", "", 0, 100, false⟩
     (by decide) (by decide)⟩

/-- C3: the cache store operation is an upsert keyed by url: on a store
satisfying the url-uniqueness invariant it leaves exactly one row for the url,
that row carries exactly the stored fields with expiry now + 7 days on
success and now + 1 day on failure, every other url's rows are untouched,
and the uniqueness invariant is preserved. -/
theorem og_cache_upsert_exactly_one_row :
    ∀ (s : DBState) (og : OpenGraphData) (fetchSuccess : Bool) (now : Int),
      cacheUnique s →
      ((cacheOpenGraphData s og fetchSuccess now).rows.filter
          (fun r => r.URL == og.URL)).length = 1 ∧
      (∀ r ∈ (cacheOpenGraphData s og fetchSuccess now).rows, r.URL = og.URL →
        r.Title = og.Title ∧ r.Description = og.Description ∧ r.Image = og.Image ∧
        r.SiteName = og.SiteName ∧ r.FetchedAt = now ∧ r.FetchSuccess = fetchSuccess ∧
        r.ExpiresAt = now + (if fetchSuccess then 7 * 24 * hourNs else 24 * hourNs)) ∧
      (cacheOpenGraphData s og fetchSuccess now).rows.filter
          (fun r => !(r.URL == og.URL)) =
        s.rows.filter (fun r => !(r.URL == og.URL)) ∧
      cacheUnique (cacheOpenGraphData s og fetchSuccess now) := by
  intro s og fetchSuccess now hinv
  refine ⟨?_, ?_, cacheOpenGraphData_frame s og fetchSuccess now,
    cacheOpenGraphData_unique s og fetchSuccess now hinv⟩
  · rw [← List.countP_eq_length_filter]
    exact cacheOpenGraphData_count_one s og fetchSuccess now hinv
  · intro r hr hu
    exact cacheOpenGraphData_row_fields s og fetchSuccess now r hr hu

/-- C3 witness: storing twice into an initially empty store still leaves
exactly one row for the url. -/
theorem og_cache_upsert_exactly_one_row_witness :
    cacheUnique ⟨[], 0⟩ ∧
    ((cacheOpenGraphData ⟨[], 0⟩ ⟨"u", "T", "D", "I", "S"⟩ true 0).rows.filter
        (fun r => r.URL == ("u" : String))).length = 1 ∧
    ((cacheOpenGraphData (cacheOpenGraphData ⟨[], 0⟩ ⟨"u", "T", "D", "I", "S"⟩ true 0)
        ⟨"u", "T2", "D2", "I2", "S2"⟩ false 3).rows.filter
        (fun r => r.URL == ("u" : String))).length = 1 := by
  have h0 : cacheUnique (⟨[], 0⟩ : DBState) := by
    intro u
    simp [List.countP_nil]
  have h1 := og_cache_upsert_exactly_one_row ⟨[], 0⟩ ⟨"u", "T", "D", "I", "S"⟩ true 0 h0
  have h2 := og_cache_upsert_exactly_one_row
    (cacheOpenGraphData ⟨[], 0⟩ ⟨"u", "T", "D", "I", "S"⟩ true 0)
    ⟨"u", "T2", "D2", "I2", "S2"⟩ false 3 h1.2.2.2
  exact ⟨h0, h1.1, h2.1⟩

/-- C10: when the cache lookup faults, enrichment behaves exactly as on a
cache miss: the fetch path runs, the outcome is stored into the faulting
store, and the returned value and fetch count are the same as those of a
fault-free call on any store where the url genuinely misses. -/
theorem lookup_fault_behaves_as_miss :
    ∀ (s s₂ : DBState) (fetch : FetchOutcome) (parseOk : String → Bool)
      (url : String) (now : Int),
      getOpenGraphData s₂ url now = none →
      getOpenGraphWithFallback (some s) true fetch url now parseOk =
        fetchAndStore s fetch url now parseOk ∧
      getOpenGraphWithFallback (some s₂) false fetch url now parseOk =
        fetchAndStore s₂ fetch url now parseOk ∧
      (getOpenGraphWithFallback (some s) true fetch url now parseOk).res =
        (getOpenGraphWithFallback (some s₂) false fetch url now parseOk).res ∧
      (getOpenGraphWithFallback (some s) true fetch url now parseOk).fetches =
        (getOpenGraphWithFallback (some s₂) false fetch url now parseOk).fetches ∧
      (getOpenGraphWithFallback (some s) true fetch url now parseOk).fetches = 1 := by
  intro s s₂ fetch parseOk url now hc
  refine ⟨getOpenGraphWithFallback_fault s fetch parseOk url now,
    getOpenGraphWithFallback_miss s₂ fetch parseOk url now hc, ?_, ?_, ?_⟩
  · rw [getOpenGraphWithFallback_fault s fetch parseOk url now,
      getOpenGraphWithFallback_miss s₂ fetch parseOk url now hc]
    simp [fetchAndStore]
  · rw [getOpenGraphWithFallback_fault s fetch parseOk url now,
      getOpenGraphWithFallback_miss s₂ fetch parseOk url now hc]
    simp [fetchAndStore]
  · rw [getOpenGraphWithFallback_fault s fetch parseOk url now]
    simp [fetchAndStore]

/-- C10 witness: a faulting lookup over a store that actually holds a live
entry for "u" still fetches and returns the same value as a genuine miss. -/
theorem lookup_fault_behaves_as_miss_witness :
    getOpenGraphData ⟨[], 0⟩ "u" 5 = none ∧
    (getOpenGraphWithFallback
        (some ⟨[⟨1, "u", "T", "D", "I", "S", 0, 100, true⟩], 2⟩) true
        ⟨none, true⟩ "u" 5 (fun _ => true)).res =
      (getOpenGraphWithFallback (some ⟨[], 0⟩) false
        ⟨none, true⟩ "u" 5 (fun _ => true)).res ∧
    (getOpenGraphWithFallback
        (some ⟨[⟨1, "u", "T", "D", "I", "S", 0, 100, true⟩], 2⟩) true
        ⟨none, true⟩ "u" 5 (fun _ => true)).fetches = 1 := by
  have h := lookup_fault_behaves_as_miss
    ⟨[⟨1, "u", "T", "D", "I", "S", 0, 100, true⟩], 2⟩ ⟨[], 0⟩
    ⟨none, true⟩ (fun _ => true) "u" 5 (by decide)
  exact ⟨by decide, h.2.2.1, h.2.2.2.2⟩

/-- C5 counterexample: called directly with the empty url over a present,
empty store, getOpenGraphWithFallback performs one cache lookup and one
gateway fetch attempt (returning nothing), so the claim that it returns
nothing with no cache lookup and no fetch is false at this input. -/
theorem empty_url_enrichment_cex :
    ¬((getOpenGraphWithFallback (some ⟨[], 0⟩) false ⟨none, true⟩ "" 0
          (fun _ => true)).lookups = 0 ∧
      (getOpenGraphWithFallback (some ⟨[], 0⟩) false ⟨none, true⟩ "" 0
          (fun _ => true)).fetches = 0) ∧
    (getOpenGraphWithFallback (some ⟨[], 0⟩) false ⟨none, true⟩ "" 0
        (fun _ => true)).lookups = 1 ∧
    (getOpenGraphWithFallback (some ⟨[], 0⟩) false ⟨none, true⟩ "" 0
        (fun _ => true)).fetches = 1 ∧
    (getOpenGraphWithFallback (some ⟨[], 0⟩) false ⟨none, true⟩ "" 0
        (fun _ => true)).res = none := by
  decide

/-- C5 amended: the empty-link guard lives in the caller: generateRSSFeed
only invokes enrichment when the item's link is non-empty, so for an empty
link no cache lookup and no gateway fetch occur and no preview is produced. -/
theorem rss_item_guard_skips_empty_link :
    ∀ (db : Option DBState) (fetch : FetchOutcome) (now : Int)
      (parseOk : String → Bool),
      rssItemOpenGraph db fetch "" now parseOk =
        { res := none, db := db, fetches := 0, lookups := 0 } := by
  intro db fetch now parseOk
  simp [rssItemOpenGraph]

/-- Extraction from a fresh record: every field is the first non-empty
candidate (og value or fallback value) in document traversal order. -/
theorem extract_empty_init (doc : HNode) (u : String) :
    extractOpenGraphTags doc ⟨u, "", "", "", ""⟩ =
      ⟨u, firstNonEmpty (docCands doc).title, firstNonEmpty (docCands doc).description,
       firstNonEmpty (docCands doc).image, firstNonEmpty (docCands doc).siteName⟩ := by
  rw [extractOpenGraphTags_eq_fillFrom]
  rfl

/-- C4 counterexample: with `<title>B</title>` preceding
`<meta property="og:title" content="A">`, extraction yields "B", not the
og:title content "A"; likewise `<meta name="description" content="B2">`
preceding `<meta property="og:description" content="A2">` yields "B2".
Non-empty og values do not take priority over earlier fallback values. -/
theorem og_priority_regardless_of_order_cex :
    (extractOpenGraphTags
        (.elem "head" []
          (.cons (.elem "title" [] (.cons (.text "B") .nil))
           (.cons (.elem "meta" [("property", "og:title"), ("content", "A")] .nil) .nil)))
        ⟨"u", "", "", "", ""⟩).Title = "B" ∧
    ¬((extractOpenGraphTags
        (.elem "head" []
          (.cons (.elem "title" [] (.cons (.text "B") .nil))
           (.cons (.elem "meta" [("property", "og:title"), ("content", "A")] .nil) .nil)))
        ⟨"u", "", "", "", ""⟩).Title = "A") ∧
    (extractOpenGraphTags
        (.elem "head" []
          (.cons (.elem "meta" [("name", "description"), ("content", "B2")] .nil)
           (.cons (.elem "meta" [("property", "og:description"), ("content", "A2")] .nil) .nil)))
        ⟨"u", "", "", "", ""⟩).Description = "B2" ∧
    ¬((extractOpenGraphTags
        (.elem "head" []
          (.cons (.elem "meta" [("name", "description"), ("content", "B2")] .nil)
           (.cons (.elem "meta" [("property", "og:description"), ("content", "A2")] .nil) .nil)))
        ⟨"u", "", "", "", ""⟩).Description = "A2") := by
  decide

/-- C4 amended: og-values win over the fallbacks only in traversal order:
for every document each extracted field equals the first non-empty candidate
value in traversal order, where the title candidates are og:title contents
and `<title>` texts, and the description candidates are og:description
contents and `<meta name="description">` contents. An og tag preceding the
fallback therefore wins, but a non-empty fallback preceding the og tag does. -/
theorem og_first_candidate_in_order_wins :
    ∀ (doc : HNode) (u : String),
      extractOpenGraphTags doc ⟨u, "", "", "", ""⟩ =
        ⟨u, firstNonEmpty (docCands doc).title,
         firstNonEmpty (docCands doc).description,
         firstNonEmpty (docCands doc).image,
         firstNonEmpty (docCands doc).siteName⟩ :=
  fun doc u => extract_empty_init doc u

/-- A document whose head holds exactly one meta tag per list entry, each
with the given property and content attributes. -/
def metaForest : List (String × String) → HForest
  | [] => .nil
  | t :: ts => .cons (.elem "meta" [("property", t.1), ("content", t.2)] .nil) (metaForest ts)

def metaDoc (tags : List (String × String)) : HNode := .elem "head" [] (metaForest tags)

/-- The four OpenGraph properties the extractor recognises. -/
def ogProperties : List String := ["og:title", "og:description", "og:image", "og:site_name"]

/-- The record field fed by a given OpenGraph property. -/
def ogField (p : String) (d : OpenGraphData) : String :=
  if p = "og:title" then d.Title
  else if p = "og:description" then d.Description
  else if p = "og:image" then d.Image
  else d.SiteName

/-- The candidates of a pure meta-tag document are, per property, exactly the
contents of the tags with that property, in document order. -/
theorem metaForest_cands (tags : List (String × String)) :
    forestCands (metaForest tags) =
      ⟨(tags.filter (fun t => t.1 = "og:title")).map Prod.snd,
       (tags.filter (fun t => t.1 = "og:description")).map Prod.snd,
       (tags.filter (fun t => t.1 = "og:image")).map Prod.snd,
       (tags.filter (fun t => t.1 = "og:site_name")).map Prod.snd⟩ := by
  induction tags with
  | nil => rfl
  | cons t ts ih =>
      simp only [metaForest, forestCands, docCands, nodeCands, OgCands.append, ih,
        List.filter_cons]
      refine OgCands.ext ?_ ?_ ?_ ?_ <;>
        dsimp only <;> split_ifs <;> simp_all [attrVal, OgCands.empty]

theorem metaDoc_cands (tags : List (String × String)) :
    docCands (metaDoc tags) =
      ⟨(tags.filter (fun t => t.1 = "og:title")).map Prod.snd,
       (tags.filter (fun t => t.1 = "og:description")).map Prod.snd,
       (tags.filter (fun t => t.1 = "og:image")).map Prod.snd,
       (tags.filter (fun t => t.1 = "og:site_name")).map Prod.snd⟩ := by
  show OgCands.append (nodeCands "head" [] (metaForest tags)) (forestCands (metaForest tags)) = _
  rw [metaForest_cands]
  rfl

/-- C6: per OpenGraph property, the first meta tag whose content is non-empty
wins and all later tags with the same property are ignored even if distinct:
over any document the image and site-name fields equal the first non-empty
og:image / og:site_name content in traversal order, and over a document of
meta tags every recognised property's field equals the first non-empty
content among the tags with that property; in particular two og:title tags
"First" then "Second" yield "First". -/
theorem og_first_occurrence_wins :
    (∀ (doc : HNode) (u : String),
      (extractOpenGraphTags doc ⟨u, "", "", "", ""⟩).Image =
        firstNonEmpty (docCands doc).image ∧
      (extractOpenGraphTags doc ⟨u, "", "", "", ""⟩).SiteName =
        firstNonEmpty (docCands doc).siteName) ∧
    (∀ (tags : List (String × String)) (p : String) (u : String),
      p ∈ ogProperties →
      ogField p (extractOpenGraphTags (metaDoc tags) ⟨u, "", "", "", ""⟩) =
        firstNonEmpty ((tags.filter (fun t => t.1 = p)).map Prod.snd)) := by
  constructor
  · intro doc u
    rw [extract_empty_init]
    exact ⟨rfl, rfl⟩
  · intro tags p u hp
    rw [extract_empty_init, metaDoc_cands]
    simp only [ogProperties, List.mem_cons, List.not_mem_nil, or_false] at hp
    rcases hp with rfl | rfl | rfl | rfl <;> simp [ogField]

/-- C6 witness: two og:title tags with contents "First" then "Second"
extract to "First". -/
theorem og_first_occurrence_wins_witness :
    ("og:title" ∈ ogProperties) ∧
    ogField "og:title"
      (extractOpenGraphTags (metaDoc [("og:title", "First"), ("og:title", "Second")])
        ⟨"u", "", "", "", ""⟩) = "First" := by
  refine ⟨by decide, ?_⟩
  have h := og_first_occurrence_wins.2 [("og:title", "First"), ("og:title", "Second")]
    "og:title" "u" (by decide)
  rw [h]
  decide

/-- HackerNewsItem mirrors the Go struct of the same name (types.go); it is
also the row shape of the `items` table. Timestamps are nanosecond counts. -/
structure HackerNewsItem where
  ItemID : String
  Title : String
  Link : String
  CommentsLink : String
  Points : Int
  CommentCount : Int
  Author : String
  CreatedAt : Int
  UpdatedAt : Int
deriving DecidableEq, Inhabited

/-- The error classes `fetchItemStats` can produce (config.go). -/
inductive StatsErr where
  | reqError
  | netError
  | rateLimited
  | notFound
  | httpError (code : Nat)
  | decodeError
deriving DecidableEq

/-- statsUpdate mirrors the Go struct of the same name (types.go). -/
structure statsUpdate where
  itemID : String
  points : Int
  commentCount : Int
  err : Option StatsErr
  isDeadItem : Bool
deriving DecidableEq

/-- What decoding the response body yields: a parsed item or a failure. -/
inductive StatsBody where
  | decodeError
  | ok (points commentCount : Int)
deriving DecidableEq

/-- The observable outcome of the per-item HTTP interaction in
`fetchItemStats`: request construction failed, the network call failed, or a
response with a status code and body arrived. -/
inductive StatsResponse where
  | reqError
  | netError
  | http (code : Nat) (body : StatsBody)
deriving DecidableEq

/-- fetchItemStats retrieves statistics for a single item (config.go):
429 is a rate-limit failure, 404 marks the item dead, any other non-200 is
an HTTP error, and a 200 body is decoded into points and comment count. -/
def fetchItemStats (itemID : String) (resp : StatsResponse) : statsUpdate :=
  match resp with
  | .reqError => { itemID := itemID, points := 0, commentCount := 0,
                   err := some .reqError, isDeadItem := false }
  | .netError => { itemID := itemID, points := 0, commentCount := 0,
                   err := some .netError, isDeadItem := false }
  | .http code body =>
    if code = 429 then
      { itemID := itemID, points := 0, commentCount := 0,
        err := some .rateLimited, isDeadItem := false }
    else if code = 404 then
      { itemID := itemID, points := 0, commentCount := 0,
        err := some .notFound, isDeadItem := true }
    else if code ≠ 200 then
      { itemID := itemID, points := 0, commentCount := 0,
        err := some (.httpError code), isDeadItem := false }
    else
      match body with
      | .decodeError => { itemID := itemID, points := 0, commentCount := 0,
                          err := some .decodeError, isDeadItem := false }
      | .ok p c => { itemID := itemID, points := p, commentCount := c,
                     err := none, isDeadItem := false }

/-- The result-consumer body of `updateItemStats` (config.go), applied to one
result: a dead item is deleted (`DELETE FROM items WHERE item_hn_id = ?`), any
other failure leaves the table unchanged, and a success updates the item's
points, comment count and update time (`UPDATE items SET ... WHERE ...`). -/
def applyStatsUpdate (now : Int) (db : List HackerNewsItem) (u : statsUpdate) :
    List HackerNewsItem :=
  match u.err with
  | some _ =>
      if u.isDeadItem then db.filter (fun r => !(r.ItemID == u.itemID)) else db
  | none =>
      db.map (fun r =>
        if r.ItemID == u.itemID then
          { r with Points := u.points, CommentCount := u.commentCount, UpdatedAt := now }
        else r)

/-- The dispatch filter of `updateItemStats`: drop items with an empty id and
items already refreshed by updateStoredItems in the same run. -/
def itemsToUpdate (items : List HackerNewsItem) (recentlyUpdated : String → Bool) :
    List HackerNewsItem :=
  items.filter (fun it => !(it.ItemID == "") && !(recentlyUpdated it.ItemID))

/-- updateItemStats (config.go): fetch stats for every dispatched item (the
per-item outcome given by the `oracle`) and apply every result to the items
table through the single result consumer. -/
def updateItemStats (db : List HackerNewsItem) (items : List HackerNewsItem)
    (recentlyUpdated : String → Bool) (oracle : String → StatsResponse)
    (now : Int) : List HackerNewsItem :=
  ((itemsToUpdate items recentlyUpdated).map
    (fun it => fetchItemStats it.ItemID (oracle it.ItemID))).foldl
      (applyStatsUpdate now) db

/-- A dead-item result deletes exactly the rows with that id. -/
theorem applyStatsUpdate_dead (now : Int) (db : List HackerNewsItem)
    (u : statsUpdate) (hsome : u.err.isSome) (hdead : u.isDeadItem = true) :
    applyStatsUpdate now db u = db.filter (fun r => !(r.ItemID == u.itemID)) := by
  unfold applyStatsUpdate
  cases herr : u.err with
  | none => rw [herr] at hsome; simp at hsome
  | some e => simp [hdead]

/-- A transient (non-dead) failure leaves the table exactly as it was. -/
theorem applyStatsUpdate_transient (now : Int) (db : List HackerNewsItem)
    (u : statsUpdate) (hsome : u.err.isSome) (hdead : u.isDeadItem = false) :
    applyStatsUpdate now db u = db := by
  unfold applyStatsUpdate
  cases herr : u.err with
  | none => rw [herr] at hsome; simp at hsome
  | some e => simp [hdead]

/-- C7: a 404 stats response marks the item gone upstream
(isDeadItem = true, no stats recorded); the result consumer then deletes
exactly that item's rows and never writes a stats update for it; and in a
concrete 3-item batch where item B returns 404 while A and C succeed, B is
deleted and A and C have their points and comment counts updated. -/
theorem stats_404_deletes_item :
    (∀ (itemID : String) (body : StatsBody),
      fetchItemStats itemID (.http 404 body) =
        { itemID := itemID, points := 0, commentCount := 0,
          err := some .notFound, isDeadItem := true }) ∧
    (∀ (now : Int) (db : List HackerNewsItem) (u : statsUpdate),
      u.err.isSome → u.isDeadItem = true →
      applyStatsUpdate now db u = db.filter (fun r => !(r.ItemID == u.itemID))) ∧
    updateItemStats
      [⟨"A", "tA", "lA", "cA", 10, 1, "a", 0, 0⟩,
       ⟨"B", "tB", "lB", "cB", 20, 2, "b", 0, 0⟩,
       ⟨"C", "tC", "lC", "cC", 30, 3, "c", 0, 0⟩]
      [⟨"A", "tA", "lA", "cA", 10, 1, "a", 0, 0⟩,
       ⟨"B", "tB", "lB", "cB", 20, 2, "b", 0, 0⟩,
       ⟨"C", "tC", "lC", "cC", 30, 3, "c", 0, 0⟩]
      (fun _ => false)
      (fun id => if id == "B" then .http 404 .decodeError
                 else if id == "A" then .http 200 (.ok 11 12)
                 else .http 200 (.ok 21 22))
      99 =
    [⟨"A", "tA", "lA", "cA", 11, 12, "a", 0, 99⟩,
     ⟨"C", "tC", "lC", "cC", 21, 22, "c", 0, 99⟩] := by
  refine ⟨?_, ?_, by decide⟩
  · intro itemID body
    simp [fetchItemStats]
  · intro now db u hsome hdead
    exact applyStatsUpdate_dead now db u hsome hdead

/-- C7 witness: a concrete dead result deletes exactly item B's row. -/
theorem stats_404_deletes_item_witness :
    fetchItemStats "B" (.http 404 .decodeError) =
      { itemID := "B", points := 0, commentCount := 0,
        err := some .notFound, isDeadItem := true } ∧
    applyStatsUpdate 7
      [⟨"A", "tA", "lA", "cA", 10, 1, "a", 0, 0⟩,
       ⟨"B", "tB", "lB", "cB", 20, 2, "b", 0, 0⟩]
      { itemID := "B", points := 0, commentCount := 0,
        err := some .notFound, isDeadItem := true } =
      ([⟨"A", "tA", "lA", "cA", 10, 1, "a", 0, 0⟩,
        ⟨"B", "tB", "lB", "cB", 20, 2, "b", 0, 0⟩] : List HackerNewsItem).filter
        (fun r => !(r.ItemID == "B")) :=
  ⟨stats_404_deletes_item.1 "B" .decodeError,
   stats_404_deletes_item.2.1 7
     [⟨"A", "tA", "lA", "cA", 10, 1, "a", 0, 0⟩,
      ⟨"B", "tB", "lB", "cB", 20, 2, "b", 0, 0⟩]
     { itemID := "B", points := 0, commentCount := 0,
       err := some .notFound, isDeadItem := true } (by decide) (by decide)⟩

/-- C8: every non-404 failure outcome (429, any other non-200 status, a
request or network error, a decode failure) carries an error and is not
marked dead; applying such a result leaves the items table exactly
unchanged (no row written, none deleted); and such a result never aborts the
batch: the remaining results are applied exactly as if it were absent. -/
theorem stats_transient_failure_leaves_item :
    (∀ (itemID : String) (body : StatsBody) (code : Nat),
      code ≠ 200 → code ≠ 404 →
      (fetchItemStats itemID (.http code body)).err.isSome = true ∧
      (fetchItemStats itemID (.http code body)).isDeadItem = false) ∧
    (∀ itemID : String,
      ((fetchItemStats itemID .netError).err.isSome = true ∧
        (fetchItemStats itemID .netError).isDeadItem = false) ∧
      ((fetchItemStats itemID .reqError).err.isSome = true ∧
        (fetchItemStats itemID .reqError).isDeadItem = false) ∧
      ((fetchItemStats itemID (.http 200 .decodeError)).err.isSome = true ∧
        (fetchItemStats itemID (.http 200 .decodeError)).isDeadItem = false)) ∧
    (∀ (now : Int) (db : List HackerNewsItem) (u : statsUpdate),
      u.err.isSome → u.isDeadItem = false →
      applyStatsUpdate now db u = db) ∧
    (∀ (now : Int) (db : List HackerNewsItem) (us vs : List statsUpdate)
       (u : statsUpdate),
      u.err.isSome → u.isDeadItem = false →
      (us ++ u :: vs).foldl (applyStatsUpdate now) db =
        (us ++ vs).foldl (applyStatsUpdate now) db) := by
  refine ⟨?_, ?_, ?_, ?_⟩
  · intro itemID body code h200 h404
    by_cases h429 : code = 429 <;>
      simp [fetchItemStats, h200, h404, h429]
  · intro itemID
    refine ⟨⟨rfl, rfl⟩, ⟨rfl, rfl⟩, ⟨rfl, rfl⟩⟩
  · intro now db u hsome hdead
    exact applyStatsUpdate_transient now db u hsome hdead
  · intro now db us vs u hsome hdead
    rw [List.foldl_append, List.foldl_append, List.foldl_cons,
      applyStatsUpdate_transient now _ u hsome hdead]

/-- C8 witness: a concrete 500 result carries an error, is not dead, and
leaves a concrete one-row table unchanged, also in the middle of a batch. -/
theorem stats_transient_failure_leaves_item_witness :
    ((fetchItemStats "X" (.http 500 .decodeError)).err.isSome = true ∧
      (fetchItemStats "X" (.http 500 .decodeError)).isDeadItem = false) ∧
    applyStatsUpdate 7 [⟨"X", "t", "l", "c", 10, 1, "a", 0, 0⟩]
      { itemID := "X", points := 0, commentCount := 0,
        err := some (.httpError 500), isDeadItem := false } =
      [⟨"X", "t", "l", "c", 10, 1, "a", 0, 0⟩] ∧
    ([{ itemID := "X", points := 0, commentCount := 0,
        err := some (.httpError 500), isDeadItem := false }] ++
      [] : List statsUpdate).foldl (applyStatsUpdate 7)
        [⟨"X", "t", "l", "c", 10, 1, "a", 0, 0⟩] =
      (([] ++ []) : List statsUpdate).foldl (applyStatsUpdate 7)
        [⟨"X", "t", "l", "c", 10, 1, "a", 0, 0⟩] :=
  ⟨stats_transient_failure_leaves_item.1 "X" .decodeError 500 (by decide) (by decide),
   stats_transient_failure_leaves_item.2.2.1 7 [⟨"X", "t", "l", "c", 10, 1, "a", 0, 0⟩]
     { itemID := "X", points := 0, commentCount := 0,
       err := some (.httpError 500), isDeadItem := false } (by decide) (by decide),
   stats_transient_failure_leaves_item.2.2.2 7 [⟨"X", "t", "l", "c", 10, 1, "a", 0, 0⟩]
     [] []
     { itemID := "X", points := 0, commentCount := 0,
       err := some (.httpError 500), isDeadItem := false } (by decide) (by decide)⟩

/-- The fixed permit count of the fetch semaphore created in
NewOpenGraphFetcher: `make(chan struct{}, 5)`. -/
def semaphoreCapacity : Nat := 5

/-- Where one caller of FetchOpenGraph stands with respect to the semaphore:
not yet past `f.semaphore <- struct{}{}`, past it (in flight), or past the
deferred `<-f.semaphore` release. -/
inductive FetchPhase where
  | idle
  | inFlight
  | finished
deriving DecidableEq

/-- How many callers are currently past the permit-acquisition point. This
also equals the buffered-channel occupancy, since every in-flight caller
holds exactly one buffered token until its deferred receive. -/
def inFlightCount (l : List FetchPhase) : Nat :=
  l.countP (fun p => p == FetchPhase.inFlight)

/-- The semaphore transition system of FetchOpenGraph: a caller's send on
the channel succeeds only while the buffer (one token per in-flight caller)
is below capacity, and a release returns its token. Cancellation simply
leaves a caller idle forever, which needs no transition. -/
inductive SemStep : List FetchPhase → List FetchPhase → Prop
  | acquire (l : List FetchPhase) (i : Nat) (h : l.get? i = some .idle)
      (hc : inFlightCount l < semaphoreCapacity) :
      SemStep l (l.set i .inFlight)
  | release (l : List FetchPhase) (i : Nat) (h : l.get? i = some .inFlight) :
      SemStep l (l.set i .finished)

/-- States reachable from any number of callers all about to fetch. -/
inductive SemReachable : List FetchPhase → Prop
  | init (n : Nat) : SemReachable (List.replicate n .idle)
  | step {l l₂ : List FetchPhase} : SemReachable l → SemStep l l₂ → SemReachable l₂

theorem countP_set_of_get? (l : List FetchPhase) (i : Nat) (a b : FetchPhase)
    (p : FetchPhase → Bool) (h : l.get? i = some b) :
    (l.set i a).countP p + (if p b then 1 else 0) =
      l.countP p + (if p a then 1 else 0) := by
  induction l generalizing i with
  | nil => simp at h
  | cons x xs ih =>
      cases i with
      | zero =>
          simp only [List.get?_cons_zero, Option.some.injEq] at h
          subst h
          simp only [List.set_cons_zero, List.countP_cons]
          omega
      | succ j =>
          simp only [List.get?_cons_succ] at h
          simp only [List.set_cons_succ, List.countP_cons]
          have := ih j h
          omega

/-- C9: in every reachable state of the semaphore transition system, at most
semaphoreCapacity (= 5) callers are past the permit-acquisition point of
FetchOpenGraph, regardless of how many callers there are. -/
theorem fetch_semaphore_bound :
    ∀ l : List FetchPhase, SemReachable l → inFlightCount l ≤ semaphoreCapacity := by
  intro l hreach
  induction hreach with
  | init n =>
      have : inFlightCount (List.replicate n FetchPhase.idle) = 0 := by
        unfold inFlightCount
        rw [List.countP_eq_zero]
        intro a ha
        rw [List.eq_of_mem_replicate ha]
        decide
      omega
  | step hr hstep ih =>
      rename_i l l₂
      cases hstep with
      | acquire i h hc =>
          have hset := countP_set_of_get? l i .inFlight .idle
            (fun p => p == FetchPhase.inFlight) h
          unfold inFlightCount at hc ⊢
          simp at hset
          omega
      | release i h =>
          have hset := countP_set_of_get? l i .finished .inFlight
            (fun p => p == FetchPhase.inFlight) h
          unfold inFlightCount at ih ⊢
          simp at hset
          omega

/-- C9 witness: the initial state with 7 idle callers is reachable and has
at most 5 in flight. -/
theorem fetch_semaphore_bound_witness :
    SemReachable (List.replicate 7 FetchPhase.idle) ∧
    inFlightCount (List.replicate 7 FetchPhase.idle) ≤ semaphoreCapacity :=
  ⟨SemReachable.init 7,
   fetch_semaphore_bound (List.replicate 7 FetchPhase.idle) (SemReachable.init 7)⟩
